import Mathlib

/-!
Shallow embedding of the configuration-resolution engine and the numerical
estimation utilities of `pysyd/utils.py`, together with proofs settling the
frozen claims about them.

Floating-point values are modelled by real numbers (`ℝ`) where the Python code
computes with transcendental functions (`**` with float exponents, `exp`,
`sqrt`), and by rationals (`ℚ`) for the purely order/arithmetic utilities,
which in Python are duck-typed over the numeric arguments.  Python `None` is
modelled by `Option`; a raised exception is modelled by `Except` with an error
type mirroring the exception classes that can escape.
-/

namespace PySyd

/-- Exceptions that the embedded code can raise.  `nameError s` models a Python
`NameError` on the undefined name `s`; `assertionError s` models a failed
`assert` with message `s`; `typeError` a `TypeError`; `valueError` a
`ValueError`; `inputError` the package's own `PySYDInputError`. -/
inductive PyErr where
  | nameError (name : String)
  | assertionError (msg : String)
  | typeError
  | valueError (msg : String)
  | inputError (msg : String)
  deriving DecidableEq, Repr

/-! ## Constants (`Constants.__init__`, utils.py lines 46-71)

Only the constants used by the derived-quantity formulas of `_add_info` are
needed; they are the CGS values from the source. -/

def m_sun : ℝ := 1.9891e33

def r_sun : ℝ := 6.95508e10

def teff_sun : ℝ := 5777.0

def numax_sun : ℝ := 3090.0

def dnu_sun : ℝ := 135.1

def G : ℝ := 6.67428e-8

/-! ## `delta_nu` (utils.py lines 1123-1138) -/

/-- Embedding of `delta_nu(numax)`: `return 0.22*(numax**0.797)`.  The float power is
modelled by the real power `Real.rpow`. -/
noncomputable def delta_nu (numax : ℝ) : ℝ :=
  0.22 * numax ^ (0.797 : ℝ)

/-! ## Per-star configuration and `Parameters._add_info` (utils.py lines 519-542)

`self.params[star]` is a string-keyed dictionary; the fields touched by
`_add_info` are modelled as a record.  `get_info` seeds every column key, so
the `'rs' in self.params[star]` membership tests always succeed and presence
of a *value* is `Option.isSome`. -/

structure StarCfg where
  numax : Option ℝ
  dnu : Option ℝ
  force : Option ℝ
  estimate : Bool
  rs : Option ℝ
  logg : Option ℝ
  teff : Option ℝ
  ms : Option ℝ
  lower_ech : Option ℝ
  upper_ech : Option ℝ
  ech_mask : Option (ℝ × ℝ)

/-- Final step of `_add_info` (lines 539-542): combine the echelle-mask
bounds into a two-element interval when both are present, else `None`. -/
def set_ech_mask (p : StarCfg) : StarCfg :=
  match p.lower_ech, p.upper_ech with
  | some lo, some hi => { p with ech_mask := some (lo, hi) }
  | _, _ => { p with ech_mask := none }

/-- Body of the per-star loop of `Parameters._add_info` (lines 527-542).

* numax present (line 528): `estimate` is set to `False`; if `dnu` is also
  present its value is recorded under `force`; then `dnu` is recomputed as
  `delta_nu(numax)`.
* else if `rs` and `logg` are both present (lines 534-538): the mass is
  `((rs*r_sun)**2 * 10**logg / G) / m_sun`, then numax and dnu follow from the
  scaling relations.  The numax line divides `self.params[star]['teff']` by
  `teff_sun`; when `teff` is `None` Python raises `TypeError` (`None`
  does not support `/`), which the embedding returns as `.error .typeError`.
* finally (lines 539-542) the echelle mask is combined. -/
noncomputable def _add_info_star (p : StarCfg) : Except PyErr StarCfg :=
  match p.numax with
  | some nu =>
      let p1 : StarCfg := { p with estimate := false }
      let p2 : StarCfg :=
        match p.dnu with
        | some d => { p1 with force := some d }
        | none => p1
      .ok (set_ech_mask { p2 with dnu := some (delta_nu nu) })
  | none =>
      match p.rs, p.logg with
      | some r, some g =>
          let m : ℝ := ((r * r_sun) ^ (2.0 : ℝ) * (10 : ℝ) ^ g / G) / m_sun
          match p.teff with
          | none => .error .typeError
          | some t =>
              let nu : ℝ := numax_sun * m * r ^ (-(2.0) : ℝ) * (t / teff_sun) ^ (-(0.5) : ℝ)
              let d : ℝ := dnu_sun * m ^ ((0.5) : ℝ) * r ^ (-(1.5) : ℝ)
              .ok (set_ech_mask { p with ms := some m, numax := some nu, dnu := some d })
      | _, _ => .ok (set_ech_mask p)

/-! Numeric bounds for `delta_nu 100`. -/

lemma hundred_rpow_gt : (39.23 : ℝ) < (100 : ℝ) ^ (0.797 : ℝ) := by
  have hnat : (3923 : ℕ) ^ 1000 < 10 ^ 3594 := by norm_num
  have hreal : (3923 : ℝ) ^ (1000 : ℕ) < (10 : ℝ) ^ (3594 : ℕ) := by
    exact_mod_cast hnat
  have hbase : (39.23 : ℝ) ^ (1000 : ℕ) < (100 : ℝ) ^ (797 : ℕ) := by
    have h1 : (39.23 : ℝ) = 3923 / 100 := by norm_num
    have h2 : ((3923 : ℝ) / 100) ^ (1000 : ℕ) = (3923 : ℝ) ^ (1000 : ℕ) / (100 : ℝ) ^ (1000 : ℕ) := by
      rw [div_pow]
    have h3 : (100 : ℝ) ^ (1000 : ℕ) * (100 : ℝ) ^ (797 : ℕ) = (10 : ℝ) ^ (3594 : ℕ) := by
      rw [← pow_add]
      norm_num
    rw [h1, h2, div_lt_iff₀ (by positivity)]
    calc (3923 : ℝ) ^ (1000 : ℕ) < (10 : ℝ) ^ (3594 : ℕ) := hreal
      _ = (100 : ℝ) ^ (797 : ℕ) * (100 : ℝ) ^ (1000 : ℕ) := by rw [mul_comm, h3]
  have hkey : ((39.23 : ℝ)) ^ (1000 : ℕ) < ((100 : ℝ) ^ (0.797 : ℝ)) ^ (1000 : ℕ) := by
    have : ((100 : ℝ) ^ (0.797 : ℝ)) ^ (1000 : ℕ) = (100 : ℝ) ^ (797 : ℕ) := by
      rw [← Real.rpow_natCast ((100 : ℝ) ^ (0.797 : ℝ)) 1000,
        ← Real.rpow_mul (by norm_num : (0 : ℝ) ≤ 100)]
      rw [show (0.797 : ℝ) * (1000 : ℕ) = (797 : ℕ) by push_cast; norm_num]
      rw [Real.rpow_natCast]
    rw [this]
    exact hbase
  exact lt_of_pow_lt_pow_left₀ 1000 (Real.rpow_nonneg (by norm_num) _) hkey

lemma hundred_rpow_lt : (100 : ℝ) ^ (0.797 : ℝ) < 39.31 := by
  have hnat : (10 : ℕ) ^ 3594 < 3931 ^ 1000 := by norm_num
  have hreal : (10 : ℝ) ^ (3594 : ℕ) < (3931 : ℝ) ^ (1000 : ℕ) := by
    exact_mod_cast hnat
  have hbase : (100 : ℝ) ^ (797 : ℕ) < (39.31 : ℝ) ^ (1000 : ℕ) := by
    have h1 : (39.31 : ℝ) = 3931 / 100 := by norm_num
    have h2 : ((3931 : ℝ) / 100) ^ (1000 : ℕ) = (3931 : ℝ) ^ (1000 : ℕ) / (100 : ℝ) ^ (1000 : ℕ) := by
      rw [div_pow]
    have h3 : (100 : ℝ) ^ (797 : ℕ) * (100 : ℝ) ^ (1000 : ℕ) = (10 : ℝ) ^ (3594 : ℕ) := by
      rw [← pow_add]
      norm_num
    rw [h1, h2, lt_div_iff₀ (by positivity), h3]
    exact hreal
  have hkey : ((100 : ℝ) ^ (0.797 : ℝ)) ^ (1000 : ℕ) < ((39.31 : ℝ)) ^ (1000 : ℕ) := by
    have : ((100 : ℝ) ^ (0.797 : ℝ)) ^ (1000 : ℕ) = (100 : ℝ) ^ (797 : ℕ) := by
      rw [← Real.rpow_natCast ((100 : ℝ) ^ (0.797 : ℝ)) 1000,
        ← Real.rpow_mul (by norm_num : (0 : ℝ) ≤ 100)]
      rw [show (0.797 : ℝ) * (1000 : ℕ) = (797 : ℕ) by push_cast; norm_num]
      rw [Real.rpow_natCast]
    rw [this]
    exact hbase
  exact lt_of_pow_lt_pow_left₀ 1000 (by norm_num) hkey

/-- The scaling relation at `numax = 100` lands within `1e-2` of `8.64`. -/
lemma delta_nu_hundred : |delta_nu 100 - 8.64| < 1e-2 := by
  have h1 := hundred_rpow_gt
  have h2 := hundred_rpow_lt
  rw [delta_nu, abs_lt]
  constructor <;> nlinarith [h1, h2]

/-- C1: for every star whose numax is resolved, `_add_info` sets the
already-estimated flag to `False`, records an explicitly resolved dnu under
`force` (leaving `force` untouched otherwise), and recomputes
`dnu = delta_nu numax = 0.22*numax**0.797`; at `numax = 100` with no explicit
dnu the recomputed spacing is within `1e-2` of `8.64`. -/
theorem C1_resolved_numax_recomputes_dnu (p : StarCfg) (nu : ℝ)
    (h : p.numax = some nu) :
    ∃ r, _add_info_star p = .ok r ∧
      r.estimate = false ∧
      r.force = (match p.dnu with | some d => some d | none => p.force) ∧
      r.dnu = some (delta_nu nu) ∧
      |delta_nu 100 - 8.64| < 1e-2 := by
  obtain ⟨nmx, dnu0, f0, e0, rs0, lg0, tf0, ms0, le0, ue0, em0⟩ := p
  simp only at h
  subst h
  cases dnu0 <;> cases le0 <;> cases ue0 <;>
    exact ⟨_, rfl, rfl, rfl, rfl, delta_nu_hundred⟩

/-- A star configuration as it reaches `_add_info` with only numax resolved
(say, a `--numax 100` override): every other column is `None`, and the
search-stage flag is at its default `True`. -/
def numaxOnlyCfg : StarCfg :=
  { numax := some 100, dnu := none, force := none, estimate := true, rs := none,
    logg := none, teff := none, ms := none, lower_ech := none, upper_ech := none,
    ech_mask := none }

/-- Witness for C1 at the concrete configuration `numax = 100`, `dnu = None`. -/
theorem C1_resolved_numax_recomputes_dnu_witness :
    numaxOnlyCfg.numax = some 100 ∧
    ∃ r, _add_info_star numaxOnlyCfg = .ok r ∧
      r.estimate = false ∧
      r.force = (match numaxOnlyCfg.dnu with | some d => some d | none => numaxOnlyCfg.force) ∧
      r.dnu = some (delta_nu 100) ∧
      |delta_nu 100 - 8.64| < 1e-2 :=
  ⟨rfl, C1_resolved_numax_recomputes_dnu numaxOnlyCfg 100 rfl⟩

/-- A star configuration with radius and surface gravity resolved but no
effective temperature: the failing input for C7. -/
def rsLoggNoTeffCfg : StarCfg :=
  { numax := none, dnu := none, force := none, estimate := true, rs := some 1.0,
    logg := some 4.4, teff := none, ms := none, lower_ech := none, upper_ech := none,
    ech_mask := none }

/-- C7 (code bug): with `rs` and `logg` resolved but `teff` missing, the
derivation in `_add_info` does not leave numax/dnu unresolved — the numax
scaling line divides `None` by `teff_sun`, so the code raises `TypeError`
instead of skipping the derivation. -/
theorem C7_missing_teff_raises_type_error :
    _add_info_star rsLoggNoTeffCfg = .error .typeError := rfl

/-! ## `Parameters._get_groups` (utils.py lines 499-516)

`np.digitize(v, bins)` with monotonically increasing `bins` (here
`np.arange(n)`) returns the number of bin edges `≤ v`. -/

def np_digitize (v : ℕ) (bins : List ℕ) : ℕ :=
  bins.countP (fun b => decide (b ≤ v))

/-- Type of `self.params['groups']`: the parallel branch stores a list of star groups,
the default branch stores the flat star array itself. -/
inductive PyGroups where
  | flat (stars : List String)
  | grouped (groups : List (List String))
  deriving DecidableEq, Repr

/-- Embedding of `Parameters._get_groups`.  The guard is `hasattr(self, 'mode') and
self.params['mode'] == 'parallel'`; a missing `mode` attribute is modelled by
`mode = none`.  In the parallel branch a zero thread count is replaced by
`mp.cpu_count()` (an environment value, passed in as `cpu_count`), the thread
count is clamped to the number of stars, and the stars are split by
`np.digitize(np.arange(len(todo)) % n_threads, np.arange(n_threads))`. -/
def _get_groups (stars : List String) (mode : Option String)
    (n_threads cpu_count : ℕ) : PyGroups :=
  match mode with
  | some m =>
      if m = "parallel" then
        let todo := stars
        let nt1 := if n_threads = 0 then cpu_count else n_threads
        let nt2 := if todo.length < nt1 then todo.length else nt1
        let digitized := (List.range todo.length).map
          (fun j => np_digitize (j % nt2) (List.range nt2))
        .grouped ((List.range nt2).map (fun i =>
          ((todo.zip digitized).filter (fun p => p.2 == i + 1)).map Prod.fst))
      else .flat stars
  | none => .flat stars

lemma countP_le_range (n v : ℕ) :
    (List.range n).countP (fun b => decide (b ≤ v)) = min (v + 1) n := by
  induction n with
  | zero => simp
  | succ n ih =>
      rw [List.range_succ, List.countP_append, ih]
      by_cases h : n ≤ v <;> simp [List.countP_cons, h] <;> omega

lemma np_digitize_mod (n j : ℕ) (hn : 0 < n) :
    np_digitize (j % n) (List.range n) = j % n + 1 := by
  rw [np_digitize, countP_le_range]
  have := Nat.mod_lt j hn
  omega

lemma zip_range_filter {α : Type} (d : α) (i : ℕ) (l : List α) :
    ∀ f : ℕ → ℕ,
    ((l.zip ((List.range l.length).map f)).filter (fun p => p.2 == i)).map Prod.fst
      = ((List.range l.length).filter (fun j => f j == i)).map (fun j => l.getD j d) := by
  induction l with
  | nil => intro f; simp
  | cons a t ih =>
      intro f
      have hih := ih (fun j => f (j + 1))
      simp only [List.length_cons, List.range_succ_eq_map, List.map_cons, List.map_map,
        List.zip_cons_cons, List.filter_cons, Function.comp_def, Nat.succ_eq_add_one]
      by_cases h : f 0 == i
      · simp only [h, if_true, List.map_cons, List.getD_cons_zero]
        rw [List.filter_map, List.map_map]
        refine congrArg (a :: ·) ?_
        rw [hih]
        rfl
      · simp only [h, Bool.false_eq_true, if_false]
        rw [List.filter_map, List.map_map, hih]
        rfl

lemma sum_map_add (l : List ℕ) (f g : ℕ → ℕ) :
    (l.map (fun i => f i + g i)).sum = (l.map f).sum + (l.map g).sum := by
  induction l with
  | nil => simp
  | cons a t ih => simp [ih]; omega

lemma sum_map_indicator (N k : ℕ) :
    ((List.range N).map (fun i => if k == i then 1 else 0)).sum
      = if k < N then 1 else 0 := by
  induction N with
  | zero => simp
  | succ N ih =>
      rw [List.range_succ, List.map_append, List.sum_append, ih]
      simp only [List.map_cons, List.map_nil, List.sum_cons, List.sum_nil, beq_iff_eq]
      split_ifs <;> omega

lemma filter_mod_length_sum (N : ℕ) (hN : 0 < N) (S : ℕ) :
    ((List.range N).map
      (fun i => ((List.range S).filter (fun j => j % N == i)).length)).sum = S := by
  induction S with
  | zero => simp
  | succ S ih =>
      have hstep : ∀ i : ℕ,
          ((List.range (S + 1)).filter (fun j => j % N == i)).length
            = ((List.range S).filter (fun j => j % N == i)).length
              + (if S % N == i then 1 else 0) := by
        intro i
        rw [List.range_succ, List.filter_append, List.length_append, List.filter_singleton]
        cases h : (S % N == i)
        · simp [h]
        · simp [h]
      simp only [hstep]
      rw [sum_map_add, ih, sum_map_indicator, if_pos (Nat.mod_lt S hN)]

/-- Normal form of the parallel branch of `_get_groups`: with a positive
requested worker count `W`, the effective group count is `min W S` and group
`i` holds the stars at list positions congruent to `i` modulo the group
count. -/
lemma get_groups_parallel (stars : List String) (W cpu : ℕ) (hW : 0 < W) :
    _get_groups stars (some "parallel") W cpu
      = .grouped ((List.range (min W stars.length)).map (fun i =>
          ((List.range stars.length).filter
            (fun j => j % (min W stars.length) == i)).map
              (fun j => stars.getD j ""))) := by
  simp only [_get_groups]
  rw [if_pos trivial]
  have h1 : (if W = 0 then cpu else W) = W := if_neg hW.ne'
  rw [h1]
  have h2 : (if stars.length < W then stars.length else W) = min W stars.length := by
    rcases lt_or_ge stars.length W with h | h
    · rw [if_pos h]; omega
    · rw [if_neg (not_lt.mpr h)]; omega
  rw [h2]
  refine congrArg PyGroups.grouped ?_
  rcases Nat.eq_zero_or_pos (min W stars.length) with hz | hpos
  · rw [hz]; simp
  · apply List.map_congr_left
    intro i _
    rw [zip_range_filter ""]
    refine congrArg _ ?_
    apply List.filter_congr
    intro j _
    rw [np_digitize_mod _ _ hpos, Bool.eq_iff_iff, beq_iff_eq, beq_iff_eq]
    omega

/-- C2: in parallel mode with a positive requested worker count `W`,
`_get_groups` produces exactly `min W S` groups, assigned round-robin by list
position modulo the group count; the group sizes sum to `S`, the union of the
groups is the input star set, and (for distinct star ids) the groups are
pairwise disjoint. -/
theorem C2_get_groups_partition (stars : List String) (W cpu : ℕ) (hW : 0 < W) :
    ∃ gs, _get_groups stars (some "parallel") W cpu = .grouped gs ∧
      gs.length = min W stars.length ∧
      (∀ i, i < gs.length →
        gs.getD i [] = ((List.range stars.length).filter
          (fun j => j % gs.length == i)).map (fun j => stars.getD j "")) ∧
      (gs.map List.length).sum = stars.length ∧
      (∀ s, s ∈ stars ↔ ∃ g ∈ gs, s ∈ g) ∧
      (stars.Nodup → ∀ i i', i < gs.length → i' < gs.length → i ≠ i' →
        ∀ s, s ∈ gs.getD i [] → s ∉ gs.getD i' []) := by
  have hS := get_groups_parallel stars W cpu hW
  set N := min W stars.length with hN
  set gs := (List.range N).map (fun i =>
    ((List.range stars.length).filter (fun j => j % N == i)).map
      (fun j => stars.getD j "")) with hgs
  have hlen : gs.length = N := by rw [hgs]; simp
  have hgetD : ∀ i, i < N →
      gs.getD i [] = ((List.range stars.length).filter
        (fun j => j % N == i)).map (fun j => stars.getD j "") := by
    intro i hi
    rw [hgs, List.getD_eq_getElem _ _ (by simpa using hi), List.getElem_map,
      List.getElem_range]
  refine ⟨gs, hS, hlen, ?_, ?_, ?_, ?_⟩
  · intro i hi
    rw [hlen] at hi ⊢
    exact hgetD i hi
  · rcases Nat.eq_zero_or_pos stars.length with h0 | hpos
    · rw [hgs, h0]
      have : N = 0 := by omega
      rw [this]
      simp
    · have hNpos : 0 < N := by omega
      rw [hgs, List.map_map]
      have : (List.length ∘ fun i =>
          ((List.range stars.length).filter (fun j => j % N == i)).map
            (fun j => stars.getD j ""))
          = fun i => ((List.range stars.length).filter (fun j => j % N == i)).length := by
        funext i
        simp [Function.comp]
      rw [this, filter_mod_length_sum N hNpos]
  · intro s
    constructor
    · intro hs
      obtain ⟨j, hj, hval⟩ := List.mem_iff_getElem.mp hs
      have hpos : 0 < stars.length := by omega
      have hNpos : 0 < N := by omega
      have hjN : j % N < N := Nat.mod_lt j hNpos
      refine ⟨gs.getD (j % N) [], ?_, ?_⟩
      · rw [hgetD _ hjN]
        rw [hgs]
        exact List.mem_map.mpr ⟨j % N, by simp [hjN], rfl⟩
      · rw [hgetD _ hjN]
        refine List.mem_map.mpr ⟨j, ?_, ?_⟩
        · rw [List.mem_filter]
          exact ⟨List.mem_range.mpr hj, by simp⟩
        · rw [List.getD_eq_getElem _ _ hj]
          exact hval
    · rintro ⟨g, hg, hsg⟩
      rw [hgs] at hg
      obtain ⟨i, _, rfl⟩ := List.mem_map.mp hg
      obtain ⟨j, hjf, hval⟩ := List.mem_map.mp hsg
      rw [List.mem_filter, List.mem_range] at hjf
      rw [← hval, List.getD_eq_getElem _ _ hjf.1]
      exact List.getElem_mem _
  · intro hnd i i' hi hi' hne s hsi hsi'
    rw [hlen] at hi hi'
    rw [hgetD _ hi] at hsi
    rw [hgetD _ hi'] at hsi'
    obtain ⟨j, hjf, hjv⟩ := List.mem_map.mp hsi
    obtain ⟨j', hjf', hjv'⟩ := List.mem_map.mp hsi'
    rw [List.mem_filter, List.mem_range] at hjf hjf'
    have hj := hjf.1
    have hj' := hjf'.1
    rw [List.getD_eq_getElem _ _ hj] at hjv
    rw [List.getD_eq_getElem _ _ hj'] at hjv'
    have hjj : j = j' := (hnd.getElem_inj_iff).mp (hjv.trans hjv'.symm)
    apply hne
    have e1 := beq_iff_eq.mp hjf.2
    have e2 := beq_iff_eq.mp hjf'.2
    rw [← e1, ← e2, hjj]

/-- Witness for C2: five stars split over two requested workers. -/
theorem C2_get_groups_partition_witness :
    0 < 2 ∧
    (∃ gs, _get_groups ["a", "b", "c", "d", "e"] (some "parallel") 2 8 = .grouped gs ∧
      gs.length = min 2 (["a", "b", "c", "d", "e"] : List String).length ∧
      (∀ i, i < gs.length →
        gs.getD i [] = ((List.range (["a", "b", "c", "d", "e"] : List String).length).filter
          (fun j => j % gs.length == i)).map
            (fun j => (["a", "b", "c", "d", "e"] : List String).getD j "")) ∧
      (gs.map List.length).sum = (["a", "b", "c", "d", "e"] : List String).length ∧
      (∀ s, s ∈ (["a", "b", "c", "d", "e"] : List String) ↔ ∃ g ∈ gs, s ∈ g) ∧
      ((["a", "b", "c", "d", "e"] : List String).Nodup →
        ∀ i i', i < gs.length → i' < gs.length → i ≠ i' →
          ∀ s, s ∈ gs.getD i [] → s ∉ gs.getD i' [])) :=
  ⟨by decide, C2_get_groups_partition ["a", "b", "c", "d", "e"] 2 8 (by decide)⟩

/-! ## `return_max` (utils.py lines 968-996)

The function is duck-typed over the numeric entries, so it is embedded
polymorphically over a linear ordered field; the Python pipeline instantiates
it at floats, modelled by `ℝ`, and the concrete examples are evaluated at `ℚ`.
`np.nan` outputs are modelled as `none`. -/

/-- Python `min(l)`: the least element of a non-empty list (`none` on `[]`,
where Python raises `ValueError`). -/
def py_min {α : Type} [LinearOrder α] : List α → Option α
  | [] => none
  | a :: t => some (t.foldl min a)

/-- Python `max(l)`: the greatest element of a non-empty list (`none` on `[]`). -/
def py_max {α : Type} [LinearOrder α] : List α → Option α
  | [] => none
  | a :: t => some (t.foldl max a)

lemma py_min_spec {α : Type} [LinearOrder α] (a : α) (t : List α) :
    t.foldl min a ∈ a :: t ∧ ∀ b ∈ a :: t, t.foldl min a ≤ b := by
  induction t generalizing a with
  | nil => simp
  | cons c t ih =>
      have h := ih (min a c)
      constructor
      · rw [List.foldl_cons]
        rcases List.mem_cons.mp h.1 with h1 | h1
        · rw [h1]
          rcases min_choice a c with hm | hm <;> rw [hm]
          · exact .head _
          · exact .tail _ (.head _)
        · exact .tail _ (.tail _ h1)
      · intro b hb
        rw [List.foldl_cons]
        rcases List.mem_cons.mp hb with rfl | hb'
        · exact le_trans (h.2 _ (.head _)) (min_le_left _ _)
        · rcases List.mem_cons.mp hb' with rfl | hb''
          · exact le_trans (h.2 _ (.head _)) (min_le_right _ _)
          · exact h.2 _ (.tail _ hb'')

lemma py_max_spec {α : Type} [LinearOrder α] (a : α) (t : List α) :
    t.foldl max a ∈ a :: t ∧ ∀ b ∈ a :: t, b ≤ t.foldl max a := by
  induction t generalizing a with
  | nil => simp
  | cons c t ih =>
      have h := ih (max a c)
      constructor
      · rw [List.foldl_cons]
        rcases List.mem_cons.mp h.1 with h1 | h1
        · rw [h1]
          rcases max_choice a c with hm | hm <;> rw [hm]
          · exact .head _
          · exact .tail _ (.head _)
        · exact .tail _ (.tail _ h1)
      · intro b hb
        rw [List.foldl_cons]
        rcases List.mem_cons.mp hb with rfl | hb'
        · exact le_trans (le_max_left _ _) (h.2 _ (.head _))
        · rcases List.mem_cons.mp hb' with rfl | hb''
          · exact le_trans (le_max_right _ _) (h.2 _ (.head _))
          · exact h.2 _ (.tail _ hb'')

/-- Embedding of `return_max(x, y, exp_dnu=None)`: on a non-empty `y`, with `exp_dnu`
given, `idx = lst.index(min(lst))` for `lst = |x - exp_dnu|`; without it,
`idx = lst.index(max(lst))` for `lst = y`; returns
`(idx, x[idx], y[idx])`, and `(None, nan, nan)` when `y` is empty.
(When `x` is empty but `y` is not, Python's `min`/indexing would raise; the
embedding is only used with equal-length series, as hypothesised in the
theorems below.) -/
def return_max {α : Type} [LinearOrderedField α] [DecidableEq α]
    (x y : List α) (exp_dnu : Option α) : Option ℕ × Option α × Option α :=
  if y = [] then (none, none, none)
  else
    let idx : ℕ :=
      match exp_dnu with
      | some d =>
          let lst := x.map (fun v => |v - d|)
          lst.indexOf ((py_min lst).getD 0)
      | none => y.indexOf ((py_max y).getD 0)
    (some idx, some (x.getD idx 0), some (y.getD idx 0))

/-- C5: on a non-empty series, `return_max` with `exp_dnu` returns the index
and coordinates of the point whose `x` is closest to `exp_dnu` (regardless of
`y`), and without `exp_dnu` the index and coordinates of the global maximum
of `y`; on `x=[1,2,3,4,5]`, `y=[1,1,1,1,1]`, `exp_dnu=3.2` it returns index 2
with `x=3`. -/
theorem C5_return_max_nearest_and_max {α : Type} [LinearOrderedField α] [DecidableEq α]
    (x y : List α) (d : α) (hy : y ≠ []) (hlen : x.length = y.length) :
    (∃ i, return_max x y (some d) = (some i, some (x.getD i 0), some (y.getD i 0)) ∧
      i < x.length ∧ ∀ j, j < x.length → |x.getD i 0 - d| ≤ |x.getD j 0 - d|) ∧
    (∃ i, return_max x y none = (some i, some (x.getD i 0), some (y.getD i 0)) ∧
      i < y.length ∧ ∀ j, j < y.length → y.getD j 0 ≤ y.getD i 0) ∧
    return_max ([1, 2, 3, 4, 5] : List ℚ) [1, 1, 1, 1, 1] (some 3.2)
      = (some 2, some 3, some 1) := by
  refine ⟨?_, ?_, ?_⟩
  · match x, hlen with
    | [], hlen =>
        have : y = [] := List.eq_nil_of_length_eq_zero (by simpa using hlen.symm)
        exact absurd this hy
    | a :: t, hlen =>
        set L := (a :: t).map (fun v => |v - d|) with hL
        set m := (t.map (fun v => |v - d|)).foldl min (|a - d|) with hm
        have hspec := py_min_spec (|a - d|) (t.map (fun v => |v - d|))
        have hmem : m ∈ L := by rw [hL, hm]; simpa using hspec.1
        have hbound : ∀ b ∈ L, m ≤ b := by rw [hL, hm]; simpa using hspec.2
        have hidx : L.indexOf m < L.length := List.indexOf_lt_length.mpr hmem
        have hlenl : L.length = (a :: t).length := by rw [hL]; simp
        have hIlt : L.indexOf m < (a :: t).length := by omega
        refine ⟨L.indexOf m, ?_, hIlt, ?_⟩
        · rw [return_max, if_neg hy, hL, hm]
          rfl
        · intro j hj
          have hjL : j < L.length := by omega
          have e1 : (a :: t).getD (L.indexOf m) 0 = (a :: t)[L.indexOf m] :=
            List.getD_eq_getElem _ _ hIlt
          have e2 : (a :: t).getD j 0 = (a :: t)[j] := List.getD_eq_getElem _ _ hj
          rw [e1, e2]
          have f1 : L[L.indexOf m] = |(a :: t)[L.indexOf m] - d| := by
            simp only [hL, List.getElem_map]
          have f2 : L[j] = |(a :: t)[j] - d| := by
            simp only [hL, List.getElem_map]
          rw [← f1, ← f2, List.getElem_indexOf hidx]
          exact hbound _ (List.getElem_mem hjL)
  · match y, hy with
    | [], hy => exact absurd rfl hy
    | a :: t, hy =>
        have hspec := py_max_spec a t
        have hidx : (a :: t).indexOf (t.foldl max a) < (a :: t).length :=
          List.indexOf_lt_length.mpr hspec.1
        refine ⟨(a :: t).indexOf (t.foldl max a), ?_, hidx, ?_⟩
        · rw [return_max, if_neg hy]
          rfl
        · intro j hj
          have h1 : (a :: t)[(a :: t).indexOf (t.foldl max a)] = t.foldl max a :=
            List.getElem_indexOf hidx
          rw [List.getD_eq_getElem _ _ hj, List.getD_eq_getElem _ _ hidx, h1]
          exact hspec.2 _ (List.getElem_mem hj)
  · rw [return_max, if_neg (by decide)]
    have hmap : (([1, 2, 3, 4, 5] : List ℚ).map (fun v => |v - 3.2|))
        = [2.2, 1.2, 0.2, 0.8, 1.8] := by
      norm_num
    rw [hmap]
    have hmin : py_min ([2.2, 1.2, 0.2, 0.8, 1.8] : List ℚ) = some 0.2 := by
      rw [py_min]
      norm_num [min_def]
    have hidx : List.indexOf (0.2 : ℚ) [2.2, 1.2, 0.2, 0.8, 1.8] = 2 := by
      rw [List.indexOf_cons_ne _ (by norm_num), List.indexOf_cons_ne _ (by norm_num),
        List.indexOf_cons_self]
    simp only [hmin, Option.getD_some, hidx]
    simp [List.getD_cons_succ, List.getD_cons_zero]

/-- Witness for C5 at `x=[1,2,3,4,5]`, `y=[1,1,1,1,1]`, `exp_dnu=3.2` (in `ℚ`). -/
theorem C5_return_max_nearest_and_max_witness :
    (([1, 1, 1, 1, 1] : List ℚ) ≠ [] ∧
      ([1, 2, 3, 4, 5] : List ℚ).length = ([1, 1, 1, 1, 1] : List ℚ).length) ∧
    ((∃ i, return_max ([1, 2, 3, 4, 5] : List ℚ) [1, 1, 1, 1, 1] (some 3.2)
        = (some i, some (([1, 2, 3, 4, 5] : List ℚ).getD i 0),
            some (([1, 1, 1, 1, 1] : List ℚ).getD i 0)) ∧
      i < ([1, 2, 3, 4, 5] : List ℚ).length ∧
      ∀ j, j < ([1, 2, 3, 4, 5] : List ℚ).length →
        |([1, 2, 3, 4, 5] : List ℚ).getD i 0 - 3.2|
          ≤ |([1, 2, 3, 4, 5] : List ℚ).getD j 0 - 3.2|) ∧
    (∃ i, return_max ([1, 2, 3, 4, 5] : List ℚ) [1, 1, 1, 1, 1] none
        = (some i, some (([1, 2, 3, 4, 5] : List ℚ).getD i 0),
            some (([1, 1, 1, 1, 1] : List ℚ).getD i 0)) ∧
      i < ([1, 1, 1, 1, 1] : List ℚ).length ∧
      ∀ j, j < ([1, 1, 1, 1, 1] : List ℚ).length →
        ([1, 1, 1, 1, 1] : List ℚ).getD j 0 ≤ ([1, 1, 1, 1, 1] : List ℚ).getD i 0) ∧
    return_max ([1, 2, 3, 4, 5] : List ℚ) [1, 1, 1, 1, 1] (some 3.2)
      = (some 2, some 3, some 1)) :=
  ⟨⟨by decide, by decide⟩,
    C5_return_max_nearest_and_max [1, 2, 3, 4, 5] [1, 1, 1, 1, 1] 3.2
      (by decide) (by decide)⟩

/-! ## `_sort_table` (utils.py lines 905-923) and the ensemble row order

`scrape_output` builds the two ensemble tables and calls
`_sort_table(df)` once for each.  `_sort_table`'s signature is
`def _sort_table(df, one=[], two=[])`: the two default lists are created once
at function-definition time and are *mutated* by `one.append(star)` /
`two.append(star)` on every call (the later `one = [str(...)]` only rebinds
the local name), so their accumulated contents persist from one call to the
next within a run.  The embedding threads that hidden state explicitly:
the arguments `one`/`two` are the contents of the default-argument objects
when the call starts, and the result carries the row order together with the
contents they hold afterwards. -/

/-- A star id is put in the numeric bucket iff it contains no alphabetic
character (`alpha == 0` in the source's per-character scan). -/
def isNumericId (s : String) : Bool :=
  s.toList.all (fun c => !c.isAlpha)

/-- Python `int(s)` on the digit-only ids reaching the numeric bucket,
accumulating decimal digits. -/
def py_int (s : String) : ℕ :=
  s.toList.foldl (fun n c => 10 * n + (c.toNat - 48)) 0

/-- Python string `<` (lexicographic over code points), used by `sorted` on
the non-numeric bucket. -/
def py_str_lt : List Char → List Char → Bool
  | [], [] => false
  | [], _ :: _ => true
  | _ :: _, [] => false
  | c :: cs, d :: ds =>
      if c.toNat < d.toNat then true
      else if d.toNat < c.toNat then false
      else py_str_lt cs ds

/-- Python string `<=` derived from `<`. -/
def py_str_le (a b : String) : Bool :=
  !(py_str_lt b.toList a.toList)

/-- Embedding of `_sort_table` on the star-id column `ids`: split ids into the numeric and
the alphanumeric bucket (appending to the persistent `one`/`two` default-arg
objects), sort the numeric bucket as integers ascending and stringify, sort
the other bucket lexicographically, and concatenate numeric-first.  Returns
`(final row order, one after the call, two after the call)`. -/
def _sort_table (ids one two : List String) :
    List String × List String × List String :=
  let one' := one ++ ids.filter (fun s => isNumericId s)
  let two' := two ++ ids.filter (fun s => !(isNumericId s))
  let final :=
    ((one'.map py_int).insertionSort (· ≤ ·)).map (fun n => Nat.repr n)
      ++ two'.insertionSort (fun a b => py_str_le a b = true)
  (final, one', two')

/-- C8 (code bug): on the claim's star ids `["10","2","1A","1"]` the *first*
`_sort_table` call of a run returns the claimed order `["1","2","10","1A"]`,
but the second call of the same run (for the global-fit table) starts from
the mutated default lists and returns every row twice — not the claimed
order. -/
theorem C8_sort_table_second_call_duplicates :
    (_sort_table ["10", "2", "1A", "1"] [] []).1 = ["1", "2", "10", "1A"] ∧
    (_sort_table ["10", "2", "1A", "1"]
        (_sort_table ["10", "2", "1A", "1"] [] []).2.1
        (_sort_table ["10", "2", "1A", "1"] [] []).2.2).1
      = ["1", "1", "2", "2", "10", "10", "1A", "1A"] := by
  decide

/-! ## `Parameters.get_defaults` and `Parameters.__init__` (utils.py lines 84-143, 145-456, 600-663)

`self.params` is a string-keyed dictionary built by successive
`self.params.update(...)` calls; it is modelled as an association list with
later-wins update.  The parameter values that occur are `None`, bools, ints,
floats, strings, the noise-law function table (`get_dict(type='functions')`),
and — through `get_global`'s dict entry `models = models`, whose free name
resolves to the imported `pysyd.models` module — a module object. -/

inductive Val where
  | vNone
  | vBool (b : Bool)
  | vInt (n : ℤ)
  | vFloat (q : ℚ)
  | vStr (s : String)
  | vFunctions
  | vModule (name : String)
  deriving DecidableEq, Repr

/-- Python `dict[k] = v` semantics for the association-list model. -/
def dict_set (d : List (String × Val)) (k : String) (v : Val) : List (String × Val) :=
  if d.any (fun p => p.1 == k) then d.map (fun p => if p.1 == k then (k, v) else p)
  else d ++ [(k, v)]

/-- Python `self.params.update(kvs)`. -/
def dict_update (d : List (String × Val)) (kvs : List (String × Val)) :
    List (String × Val) :=
  kvs.foldl (fun acc kv => dict_set acc kv.1 kv.2) d

/-- Embedding of `get_parent()` with default arguments (utils.py lines 178-190).  `INPDIR`,
`INFDIR` and `OUTDIR` are package path constants, modelled as plain strings. -/
def get_parent : List (String × Val) :=
  [("cli", .vBool false), ("inpdir", .vStr "INPDIR"), ("infdir", .vStr "INFDIR"),
   ("outdir", .vStr "OUTDIR"), ("overwrite", .vBool false), ("show", .vBool false),
   ("ret", .vBool false), ("save", .vBool true), ("test", .vBool false),
   ("verbose", .vBool false)]

/-- Embedding of `get_data()` with default arguments (utils.py lines 248-269). -/
def get_data : List (String × Val) :=
  [("dnu", .vNone), ("gap", .vInt 20), ("info", .vStr "INFDIR/star_info.csv"),
   ("ignore", .vBool false), ("kep_corr", .vBool false), ("lower_ff", .vNone),
   ("lower_lc", .vNone), ("lower_ps", .vNone), ("mode", .vStr "load"),
   ("notching", .vBool false), ("oversampling_factor", .vNone), ("seed", .vNone),
   ("stars", .vNone), ("todo", .vStr "INFDIR/todo.txt"), ("upper_ff", .vNone),
   ("upper_lc", .vNone), ("upper_ps", .vNone), ("stitch", .vBool false),
   ("n_threads", .vInt 0)]

/-- Embedding of `get_estimate()` (utils.py lines 306-318).  The dict literal is evaluated
entry by entry — `ask`, `binning`, `bin_mode`, `estimate`, `adjust`, and then
`lower_est = lower_est`: the name `lower_est` is bound nowhere (the keyword
parameter is `lower_se`, and no local, module-level or imported name
`lower_est` exists), so Python raises `NameError` before the dict is built;
`upper_ex = upper_ex` (for parameter `upper_se`) would be the next failure. -/
def get_estimate : Except PyErr (List (String × Val)) :=
  .error (.nameError "lower_est")

/-- Embedding of `get_background()` with default arguments (utils.py lines 360-374);
`functions` is the noise-law dispatch table from `get_dict(type='functions')`. -/
def get_background : List (String × Val) :=
  [("background", .vBool true), ("basis", .vStr "tau_sigma"), ("box_filter", .vFloat 1.0),
   ("ind_width", .vFloat 20.0), ("n_laws", .vNone), ("lower_bg", .vFloat 1.0),
   ("metric", .vStr "bic"), ("models", .vBool false), ("n_rms", .vInt 20),
   ("upper_bg", .vFloat 8000.0), ("fix_wn", .vBool false), ("functions", .vFunctions)]

/-- Embedding of `get_global()` with default arguments (utils.py lines 433-455).  The dict
entry `models = models` reads the free name `models`, which resolves to the
imported `pysyd.models` module (there is no `models` parameter here),
overwriting `get_background`'s boolean. -/
def get_global : List (String × Val) :=
  [("cmap", .vStr "binary"), ("clip_value", .vFloat 3.0), ("fft", .vBool true),
   ("globe", .vBool true), ("interp_ech", .vBool false), ("lower_osc", .vNone),
   ("models", .vModule "pysyd.models"), ("mc_iter", .vInt 1), ("nox", .vNone),
   ("noy", .vStr "0+0"), ("npb", .vInt 10), ("n_peaks", .vInt 10), ("numax", .vNone),
   ("osc_width", .vFloat 1.0), ("smooth_ech", .vNone), ("sm_par", .vNone),
   ("smooth_ps", .vFloat 2.5), ("threshold", .vFloat 1.0), ("upper_osc", .vNone),
   ("hey", .vBool false), ("samples", .vBool false)]

/-- Embedding of `get_defaults()` (utils.py lines 115-143): seed `self.params = {}` and
update with the five blocks in order.  The `get_estimate` step raises. -/
def get_defaults : Except PyErr (List (String × Val)) :=
  let p1 := dict_update [] get_parent
  let p2 := dict_update p1 get_data
  match get_estimate with
  | .error e => .error e
  | .ok est =>
      let p3 := dict_update p2 est
      let p4 := dict_update p3 get_background
      let p5 := dict_update p4 get_global
      .ok p5

/-- The command-line `argparse.Namespace` fields read by `check_cli` and the
star-resolution steps of `__init__`.  The ten override entries are
position-aligned per-star float lists. -/
structure Args where
  cli : Bool
  stars : Option (List String)
  numax : Option (List ℚ)
  dnu : Option (List ℚ)
  lower_ex : Option (List ℚ)
  upper_ex : Option (List ℚ)
  lower_bg : Option (List ℚ)
  upper_bg : Option (List ℚ)
  lower_ps : Option (List ℚ)
  upper_ps : Option (List ℚ)
  lower_ech : Option (List ℚ)
  upper_ech : Option (List ℚ)
  oversampling_factor : Option Val
  n_laws : Option ℕ

/-- Contents of `self.override` as built in `check_cli` (utils.py lines 645-656), in the
source's insertion order. -/
def override_items (a : Args) : List (String × Option (List ℚ)) :=
  [("numax", a.numax), ("dnu", a.dnu), ("lower_ex", a.lower_ex), ("upper_ex", a.upper_ex),
   ("lower_bg", a.lower_bg), ("upper_bg", a.upper_bg), ("lower_ps", a.lower_ps),
   ("upper_ps", a.upper_ps), ("lower_ech", a.lower_ech), ("upper_ech", a.upper_ech)]

/-- Embedding of `check_cli(args, max_laws=3)` (utils.py lines 628-663): iterate the
override dict in insertion order and fail on the first non-`None` entry whose
length differs from the star count; then check that the oversampling factor
(when given) is an `int` and that `n_laws` (when given) is at most
`max_laws`.  A failed `assert` is the CONFIG error of the spec.  (`args.stars
= None` would make `len(args.stars)` raise; the embedding is exercised with a
star list present.) -/
def check_cli (a : Args) (max_laws : ℕ) :
    Except PyErr (List (String × Option (List ℚ))) :=
  match (override_items a).find? (fun kv =>
      match kv.2 with
      | some l => decide (l.length ≠ (a.stars.getD []).length)
      | none => false) with
  | some kv => .error (.assertionError
      ("The number of values provided for " ++ kv.1
        ++ " does not equal the number of stars"))
  | none =>
      match a.oversampling_factor with
      | some (.vInt _) | none =>
          match a.n_laws with
          | some n =>
              if n ≤ max_laws then .ok (override_items a)
              else .error (.assertionError
                "We likely cannot resolve that many Harvey-like components for point sources.")
          | none => .ok (override_items a)
      | some _ => .error (.assertionError
          "The oversampling factor for the input PS must be an integer")

/-- Embedding of `assign_stars` (utils.py lines 467-482): with saving enabled it ensures a
per-star output directory exists for every star (idempotent create).  The
returned list records the per-star directories touched; `_get_groups` and
`_add_info` (modelled above) follow the directory creation. -/
def assign_stars_dirs (stars : List String) (save : Bool) : List String :=
  if save then stars else []

/-- The CLI path of `Parameters.__init__` (utils.py lines 84-103):
`get_defaults()` first, then `_add_cli(args)` — which for `args.cli` runs
`check_cli(args)` and falls back to the `todo.txt` star list when no stars
were passed (modelled as absent, the example-setup state) — and finally
`assign_stars()`.  Returns the per-star directories created together with the
outcome. -/
def parameters_init (a : Args) : List String × Except PyErr Unit :=
  match get_defaults with
  | .error e => ([], .error e)
  | .ok _ =>
      if a.cli then
        match check_cli a 3 with
        | .error e => ([], .error e)
        | .ok _ =>
            match a.stars with
            | some stars => (assign_stars_dirs stars true, .ok ())
            | none => ([], .error (.inputError "ERROR: no stars or star list provided"))
      else
        match a.stars with
        | some stars => (assign_stars_dirs stars true, .ok ())
        | none => ([], .error (.inputError "ERROR: no stars or star list provided"))

/-- C10 (code bug): resolution step 1 never completes — every invocation of
`get_defaults` raises `NameError` on the undefined name `lower_est` inside
`get_estimate`, so the star configurations are never seeded at all. -/
theorem C10_get_defaults_raises_name_error :
    get_defaults = .error (.nameError "lower_est") := rfl

/-- CLI arguments with two requested stars but a single numax override —
the failing input for C3. -/
def badArgs : Args :=
  { cli := true, stars := some ["1", "2"], numax := some [100], dnu := none,
    lower_ex := none, upper_ex := none, lower_bg := none, upper_bg := none,
    lower_ps := none, upper_ps := none, lower_ech := none, upper_ech := none,
    oversampling_factor := none, n_laws := none }

/-- C3 (code bug): on a mismatched override length no per-star directory is
created, but the failure is not the override-length CONFIG error — `__init__`
raises `NameError` from `get_defaults`/`get_estimate` before `check_cli` ever
runs, so the up-front length validation is unreachable.  (`check_cli` itself,
called with these arguments, does fail with the length assertion, showing the
validation-before-side-effects ordering is what the code intends.) -/
theorem C3_init_name_error_preempts_length_check :
    parameters_init badArgs = ([], .error (.nameError "lower_est")) ∧
    check_cli badArgs 3 = .error (.assertionError
      "The number of values provided for numax does not equal the number of stars") :=
  ⟨rfl, rfl⟩

/-! ## `max_elements` (utils.py lines 926-965)

The Gaussian weighting uses `exp`, so this utility is embedded over `ℝ`. -/

/-- The array `weights = np.ones_like(yy)`, multiplied (when `exp_dnu` is given) by the
Gaussian `np.exp(-(xx-exp_dnu)**2./(2.*sig**2))*((sig*np.sqrt(2.*np.pi))**-1.)`
with `sig = 0.35*exp_dnu/2.35482`, evaluated over the `x` array. -/
noncomputable def gauss_weights (x y : List ℝ) (exp_dnu : Option ℝ) : List ℝ :=
  match exp_dnu with
  | some d =>
      let sig := 0.35 * d / 2.35482
      x.map (fun v => Real.exp (-((v - d) ^ 2) / (2 * sig ^ 2))
        * (sig * Real.sqrt (2 * Real.pi))⁻¹)
  | none => List.replicate y.length 1

/-- Result of `yy *= weights`: the weighted copy of `y` handed to the peak finder. -/
noncomputable def weighted_y (x y : List ℝ) (exp_dnu : Option ℝ) : List ℝ :=
  (y.zip (gauss_weights x y exp_dnu)).map (fun p => p.1 * p.2)

/-- Embedding of `scipy.signal.find_peaks`' local-maxima detection: interior samples
strictly greater than both direct neighbours.  (For a flat-topped plateau
scipy returns the plateau midpoint instead; no series in this development has
equal neighbouring samples, so the strict form coincides with scipy here.)
Boundary samples are never peaks. -/
noncomputable def find_peaks (y : List ℝ) : List ℕ :=
  (List.range y.length).filter (fun m =>
    decide (0 < m ∧ m + 1 < y.length ∧
      y.getD (m - 1) 0 < y.getD m 0 ∧ y.getD (m + 1) 0 < y.getD m 0))

/-- scipy's `_select_by_peak_distance`: visit candidate peaks from the
highest signal value down and keep a peak unless an already-kept peak lies
closer than `ceil(distance)` index positions; the kept peaks are returned in
index order. -/
noncomputable def select_by_peak_distance (peaks : List ℕ) (yy : List ℝ)
    (distance : ℝ) : List ℕ :=
  let dist := ⌈distance⌉₊
  let prio := (peaks.map (fun i => (i, yy.getD i 0))).insertionSort
    (fun p q => q.2 ≤ p.2)
  let keep := prio.foldl (fun kept p =>
    if kept.any (fun q => q ≠ p.1 ∧ max q p.1 - min q p.1 < dist) then kept
    else kept ++ [p.1]) []
  peaks.filter (fun i => keep.contains i)

/-- Python slicing `arr[-k:]` (note `arr[-0:]` is the whole array). -/
def py_slice_last {α : Type} (l : List α) (k : ℕ) : List α :=
  if k = 0 then l else l.drop (l.length - k)

/-- Embedding of `max_elements(x, y, npeaks, distance=None, exp_dnu=None)`: find the local
maxima of the weighted copy `yy` of `y` (thinned by `distance` when given),
read the peak coordinates `px, py` from the *original* `x` and `y` arrays,
order them by `np.argsort(py)` — i.e. by the original, unweighted
magnitudes — keep the last `npeaks` of the ascending order and reverse, and
return them with the weighting curve. -/
noncomputable def max_elements (x y : List ℝ) (npeaks : ℕ) (distance : Option ℝ)
    (exp_dnu : Option ℝ) : List ℝ × List ℝ × List ℝ :=
  let weights := gauss_weights x y exp_dnu
  let yy := weighted_y x y exp_dnu
  let peaks_idx :=
    match distance with
    | some dist => select_by_peak_distance (find_peaks yy) yy dist
    | none => find_peaks yy
  let pairs := peaks_idx.map (fun i => (x.getD i 0, y.getD i 0))
  let chosen := (py_slice_last (pairs.insertionSort (fun p q => p.2 ≤ q.2)) npeaks).reverse
  (chosen.map Prod.fst, chosen.map Prod.snd, weights)

instance : IsTotal (ℝ × ℝ) (fun p q => p.2 ≤ q.2) :=
  ⟨fun a b => le_total a.2 b.2⟩

instance : IsTrans (ℝ × ℝ) (fun p q => p.2 ≤ q.2) :=
  ⟨fun _ _ _ hab hbc => le_trans hab hbc⟩

lemma zip_map_fst_snd {α β : Type} (l : List (α × β)) :
    (l.map Prod.fst).zip (l.map Prod.snd) = l := by
  induction l with
  | nil => rfl
  | cons a t ih => simp [ih]

/-- The peaks of the weighted series read off the original arrays, sorted by
unweighted magnitude ascending, last `npeaks` kept and reversed: the list the
two returned coordinate sequences of `max_elements` (with `distance=None`)
are projected from. -/
noncomputable def me_chosen (x y : List ℝ) (npeaks : ℕ) (e : Option ℝ) :
    List (ℝ × ℝ) :=
  (py_slice_last (((find_peaks (weighted_y x y e)).map
    (fun i => (x.getD i 0, y.getD i 0))).insertionSort
      (fun p q => p.2 ≤ q.2)) npeaks).reverse

lemma max_elements_none_eq (x y : List ℝ) (npeaks : ℕ) (e : Option ℝ) :
    max_elements x y npeaks none e
      = ((me_chosen x y npeaks e).map Prod.fst,
         (me_chosen x y npeaks e).map Prod.snd,
         gauss_weights x y e) := rfl

lemma max_elements_eval_example :
    max_elements [1, 2, 3, 4, 5] [0, 5, 0, 3, 0] 2 none none
      = ([2, 4], [5, 3], List.replicate 5 1) := by
  have e1 : weighted_y ([1, 2, 3, 4, 5] : List ℝ) [0, 5, 0, 3, 0] none = [0, 5, 0, 3, 0] := by
    show ([0 * 1, 5 * 1, 0 * 1, 3 * 1, 0 * 1] : List ℝ) = [0, 5, 0, 3, 0]
    norm_num
  have e2 : find_peaks ([0, 5, 0, 3, 0] : List ℝ) = [1, 3] := by
    unfold find_peaks
    rw [show (([0, 5, 0, 3, 0] : List ℝ)).length = 5 from rfl]
    rw [show List.range 5 = [0, 1, 2, 3, 4] from rfl]
    norm_num [List.filter_cons, decide_eq_true_eq, List.getD_cons_zero, List.getD_cons_succ]
  have e3 : ([1, 3] : List ℕ).map
      (fun i => (([1, 2, 3, 4, 5] : List ℝ).getD i 0, ([0, 5, 0, 3, 0] : List ℝ).getD i 0))
      = [(2, 5), (4, 3)] := by
    norm_num [List.getD_cons_zero, List.getD_cons_succ]
  have e4 : ([((2 : ℝ), (5 : ℝ)), (4, 3)].insertionSort (fun p q => p.2 ≤ q.2))
      = [(4, 3), (2, 5)] := by
    rw [List.insertionSort, List.insertionSort, List.insertionSort,
      List.orderedInsert, List.orderedInsert, if_neg (by norm_num), List.orderedInsert]
  have e5 : me_chosen [1, 2, 3, 4, 5] [0, 5, 0, 3, 0] 2 none = [(2, 5), (4, 3)] := by
    rw [me_chosen, e1, e2, e3, e4]
    rfl
  rw [max_elements_none_eq, e5]
  rfl

/-- C4 (amended): `max_elements` returns at most `npeaks` peaks whose
coordinates come from the local maxima of the *weighted* series, with the
returned magnitudes taken from the original unweighted `y`, **ordered by
descending original (unweighted) magnitude** — the Gaussian weight affects
only which candidate peaks are detected, not the ranking; the weighting curve
is all-ones when `exp_dnu` is null, and the claim's example evaluates as
stated. -/
theorem C4_max_elements_ranked_by_unweighted (x y : List ℝ) (npeaks : ℕ)
    (e : Option ℝ) (hnp : 0 < npeaks) :
    ((max_elements x y npeaks none e).1.length ≤ npeaks ∧
      (max_elements x y npeaks none e).2.1.length
        = (max_elements x y npeaks none e).1.length) ∧
    List.Sorted (fun a b => b ≤ a) (max_elements x y npeaks none e).2.1 ∧
    (∀ p ∈ (max_elements x y npeaks none e).1.zip (max_elements x y npeaks none e).2.1,
      ∃ i ∈ find_peaks (weighted_y x y e), p.1 = x.getD i 0 ∧ p.2 = y.getD i 0) ∧
    (max_elements x y npeaks none none).2.2 = List.replicate y.length 1 ∧
    max_elements [1, 2, 3, 4, 5] [0, 5, 0, 3, 0] 2 none none
      = ([2, 4], [5, 3], List.replicate 5 1) := by
  have hS := List.sorted_insertionSort (fun p q : ℝ × ℝ => p.2 ≤ q.2)
    ((find_peaks (weighted_y x y e)).map (fun i => (x.getD i 0, y.getD i 0)))
  have hslice : (py_slice_last (((find_peaks (weighted_y x y e)).map
      (fun i => (x.getD i 0, y.getD i 0))).insertionSort
        (fun p q => p.2 ≤ q.2)) npeaks).Sorted (fun p q : ℝ × ℝ => p.2 ≤ q.2) := by
    rw [py_slice_last, if_neg hnp.ne']
    exact hS.sublist (List.drop_sublist _ _)
  refine ⟨⟨?_, ?_⟩, ?_, ?_, rfl, max_elements_eval_example⟩
  · rw [max_elements_none_eq, me_chosen]
    rw [List.length_map, List.length_reverse, py_slice_last, if_neg hnp.ne',
      List.length_drop]
    omega
  · rw [max_elements_none_eq]
    rw [List.length_map, List.length_map]
  · rw [max_elements_none_eq]
    rw [List.Sorted, List.pairwise_map, me_chosen, List.pairwise_reverse]
    exact hslice
  · intro p hp
    rw [max_elements_none_eq] at hp
    rw [zip_map_fst_snd] at hp
    rw [me_chosen] at hp
    have hpS : p ∈ ((find_peaks (weighted_y x y e)).map
        (fun i => (x.getD i 0, y.getD i 0))).insertionSort (fun p q => p.2 ≤ q.2) := by
      have h1 : p ∈ py_slice_last (((find_peaks (weighted_y x y e)).map
          (fun i => (x.getD i 0, y.getD i 0))).insertionSort (fun p q => p.2 ≤ q.2))
            npeaks := List.mem_reverse.mp hp
      rw [py_slice_last, if_neg hnp.ne'] at h1
      exact (List.drop_sublist _ _).subset h1
    have hppairs : p ∈ (find_peaks (weighted_y x y e)).map
        (fun i => (x.getD i 0, y.getD i 0)) :=
      (List.perm_insertionSort _ _).mem_iff.mp hpS
    obtain ⟨i, hi, hpi⟩ := List.mem_map.mp hppairs
    exact ⟨i, hi, by rw [← hpi], by rw [← hpi]⟩

lemma find_peaks_five_pattern (A B : ℝ) (hA : 0 < A) (hB : 0 < B) :
    find_peaks [0, A, 0, B, 0] = [1, 3] := by
  unfold find_peaks
  rw [show (([0, A, 0, B, 0] : List ℝ)).length = 5 from rfl]
  rw [show List.range 5 = [0, 1, 2, 3, 4] from rfl]
  have h1 : ¬(A < 0) := asymm hA
  have h2 : ¬(B < 0) := asymm hB
  norm_num [List.filter_cons, decide_eq_true_eq, List.getD_cons_zero,
    List.getD_cons_succ, hA, hB, h1, h2]

/-- C4 counterexample: with `x=[1,2,3,4,5]`, `y=[0,10,0,9,0]`, `npeaks=2` and
`exp_dnu=4`, `max_elements` returns the peak at `x=2` (value `10`) *before*
the peak at `x=4` (value `9`), even though the first peak's weighted
magnitude `10*w[1]` is strictly below the second's `9*w[3]` — so the output
is not sorted by descending weighted magnitude, refuting the claim's ranking
clause. -/
theorem C4_counterexample_ranking_not_by_weighted :
    (max_elements [1, 2, 3, 4, 5] [0, 10, 0, 9, 0] 2 none (some 4)).1 = [2, 4] ∧
    (max_elements [1, 2, 3, 4, 5] [0, 10, 0, 9, 0] 2 none (some 4)).2.1 = [10, 9] ∧
    10 * (gauss_weights [1, 2, 3, 4, 5] [0, 10, 0, 9, 0] (some 4)).getD 1 0
      < 9 * (gauss_weights [1, 2, 3, 4, 5] [0, 10, 0, 9, 0] (some 4)).getD 3 0 := by
  have hs : (0 : ℝ) < 0.35 * 4 / 2.35482 := by norm_num
  set s : ℝ := 0.35 * 4 / 2.35482 with hsdef
  set c : ℝ := (s * Real.sqrt (2 * Real.pi))⁻¹ with hcdef
  have hc : 0 < c := by
    rw [hcdef]
    have hsq : 0 < Real.sqrt (2 * Real.pi) :=
      Real.sqrt_pos.mpr (by positivity)
    positivity
  have hg2 : (gauss_weights [1, 2, 3, 4, 5] [0, 10, 0, 9, 0] (some 4)).getD 1 0
      = Real.exp (-(((2 : ℝ) - 4) ^ 2) / (2 * s ^ 2)) * c := rfl
  have hg4 : (gauss_weights [1, 2, 3, 4, 5] [0, 10, 0, 9, 0] (some 4)).getD 3 0
      = Real.exp (-(((4 : ℝ) - 4) ^ 2) / (2 * s ^ 2)) * c := rfl
  have hA : (0 : ℝ) < 10 * (Real.exp (-(((2 : ℝ) - 4) ^ 2) / (2 * s ^ 2)) * c) :=
    mul_pos (by norm_num) (mul_pos (Real.exp_pos _) hc)
  have hB : (0 : ℝ) < 9 * (Real.exp (-(((4 : ℝ) - 4) ^ 2) / (2 * s ^ 2)) * c) :=
    mul_pos (by norm_num) (mul_pos (Real.exp_pos _) hc)
  have hyy : weighted_y [1, 2, 3, 4, 5] [0, 10, 0, 9, 0] (some 4)
      = [0, 10 * (Real.exp (-(((2 : ℝ) - 4) ^ 2) / (2 * s ^ 2)) * c), 0,
          9 * (Real.exp (-(((4 : ℝ) - 4) ^ 2) / (2 * s ^ 2)) * c), 0] := by
    show (([0, 10, 0, 9, 0] : List ℝ).zip
        [Real.exp (-(((1 : ℝ) - 4) ^ 2) / (2 * s ^ 2)) * c,
         Real.exp (-(((2 : ℝ) - 4) ^ 2) / (2 * s ^ 2)) * c,
         Real.exp (-(((3 : ℝ) - 4) ^ 2) / (2 * s ^ 2)) * c,
         Real.exp (-(((4 : ℝ) - 4) ^ 2) / (2 * s ^ 2)) * c,
         Real.exp (-(((5 : ℝ) - 4) ^ 2) / (2 * s ^ 2)) * c]).map (fun p => p.1 * p.2) = _
    norm_num
  have e3 : ([1, 3] : List ℕ).map
      (fun i => (([1, 2, 3, 4, 5] : List ℝ).getD i 0, ([0, 10, 0, 9, 0] : List ℝ).getD i 0))
      = [(2, 10), (4, 9)] := by
    norm_num [List.getD_cons_zero, List.getD_cons_succ]
  have e4 : ([((2 : ℝ), (10 : ℝ)), (4, 9)].insertionSort (fun p q => p.2 ≤ q.2))
      = [(4, 9), (2, 10)] := by
    rw [List.insertionSort, List.insertionSort, List.insertionSort,
      List.orderedInsert, List.orderedInsert, if_neg (by norm_num), List.orderedInsert]
  have e5 : me_chosen [1, 2, 3, 4, 5] [0, 10, 0, 9, 0] 2 (some 4) = [(2, 10), (4, 9)] := by
    rw [me_chosen, hyy, find_peaks_five_pattern _ _ hA hB, e3, e4]
    rfl
  refine ⟨?_, ?_, ?_⟩
  · rw [max_elements_none_eq, e5]
    rfl
  · rw [max_elements_none_eq, e5]
    rfl
  · rw [hg2, hg4]
    have h44 : (-(((4 : ℝ) - 4) ^ 2) / (2 * s ^ 2)) = 0 := by norm_num
    rw [h44, Real.exp_zero, one_mul]
    have h22 : (-(((2 : ℝ) - 4) ^ 2) / (2 * s ^ 2)) = -(4 / (2 * s ^ 2)) := by
      norm_num
    rw [h22]
    have ha : (1 : ℝ) / 9 < 4 / (2 * s ^ 2) := by
      rw [hsdef]
      norm_num
    have h2 : (0 : ℝ) < 4 / (2 * s ^ 2) + 1 := by linarith
    have hexp : Real.exp (-(4 / (2 * s ^ 2))) ≤ (4 / (2 * s ^ 2) + 1)⁻¹ := by
      rw [Real.exp_neg]
      have h1 : 4 / (2 * s ^ 2) + 1 ≤ Real.exp (4 / (2 * s ^ 2)) :=
        Real.add_one_le_exp _
      exact inv_anti₀ h2 h1
    have h9 : (4 / (2 * s ^ 2) + 1)⁻¹ < 9 / 10 := by
      have h10 : (10 : ℝ) / 9 < 4 / (2 * s ^ 2) + 1 := by linarith
      nlinarith [mul_inv_cancel₀ (ne_of_gt h2), inv_pos.mpr h2]
    have hE : Real.exp (-(4 / (2 * s ^ 2))) < 9 / 10 := lt_of_le_of_lt hexp h9
    nlinarith [mul_lt_mul_of_pos_right hE hc, hc, Real.exp_pos (-(4 / (2 * s ^ 2)))]

/-- Witness for C4 at the claim's example input. -/
theorem C4_max_elements_ranked_by_unweighted_witness :
    0 < 2 ∧
    (((max_elements [1, 2, 3, 4, 5] [0, 5, 0, 3, 0] 2 none none).1.length ≤ 2 ∧
      (max_elements [1, 2, 3, 4, 5] [0, 5, 0, 3, 0] 2 none none).2.1.length
        = (max_elements [1, 2, 3, 4, 5] [0, 5, 0, 3, 0] 2 none none).1.length) ∧
    List.Sorted (fun a b => b ≤ a)
      (max_elements [1, 2, 3, 4, 5] [0, 5, 0, 3, 0] 2 none none).2.1 ∧
    (∀ p ∈ (max_elements [1, 2, 3, 4, 5] [0, 5, 0, 3, 0] 2 none none).1.zip
        (max_elements [1, 2, 3, 4, 5] [0, 5, 0, 3, 0] 2 none none).2.1,
      ∃ i ∈ find_peaks (weighted_y [1, 2, 3, 4, 5] [0, 5, 0, 3, 0] none),
        p.1 = ([1, 2, 3, 4, 5] : List ℝ).getD i 0 ∧
        p.2 = ([0, 5, 0, 3, 0] : List ℝ).getD i 0) ∧
    (max_elements [1, 2, 3, 4, 5] [0, 5, 0, 3, 0] 2 none none).2.2
      = List.replicate ([0, 5, 0, 3, 0] : List ℝ).length 1 ∧
    max_elements [1, 2, 3, 4, 5] [0, 5, 0, 3, 0] 2 none none
      = ([2, 4], [5, 3], List.replicate 5 1)) :=
  ⟨by decide,
    C4_max_elements_ranked_by_unweighted [1, 2, 3, 4, 5] [0, 5, 0, 3, 0] 2 none (by decide)⟩

/-! ## `_bin_data` (utils.py lines 999-1035) -/

/-- Embedding of `np.arange(start, stop, step)` for positive `step`: `⌈(stop-start)/step⌉`
equally spaced values from `start`. -/
noncomputable def np_arange (start stop step : ℝ) : List ℝ :=
  (List.range ⌈(stop - start) / step⌉₊).map (fun i : ℕ => start + i * step)

/-- Embedding of `np.digitize(v, bins)` for monotonically increasing `bins`: the number of
bin edges `≤ v`. -/
noncomputable def np_digitize_r (v : ℝ) (bins : List ℝ) : ℕ :=
  bins.countP (fun b => decide (b ≤ v))

/-- Embedding of `np.logspace(start, stop, num)`: `num` points from `10**start` with a
fixed step in the exponent. -/
noncomputable def np_logspace (start stop : ℝ) (num : ℕ) : List ℝ :=
  (List.range num).map (fun i : ℕ =>
    (10 : ℝ) ^ (start + i * ((stop - start) / ((num : ℝ) - 1))))

/-- Embedding of `ndarray.mean()`. -/
noncomputable def np_mean (l : List ℝ) : ℝ := l.sum / l.length

/-- Embedding of `ndarray.std()`: the population standard deviation (`ddof=0`). -/
noncomputable def np_std (l : List ℝ) : ℝ :=
  Real.sqrt ((l.map (fun v => (v - np_mean l) ^ 2)).sum / l.length)

/-- Embedding of `np.median`. -/
noncomputable def np_median (l : List ℝ) : ℝ :=
  let srt := l.insertionSort (· ≤ ·)
  if l.length % 2 = 1 then srt.getD (l.length / 2) 0
  else (srt.getD (l.length / 2 - 1) 0 + srt.getD (l.length / 2) 0) / 2

/-- The data pairs falling into bin `i`: the mask `digitized == i` applied to
the position-aligned `x`/`y` arrays. -/
noncomputable def bin_members (x y : List ℝ) (bins : List ℝ) (i : ℕ) :
    List (ℝ × ℝ) :=
  (x.zip y).filter (fun p => np_digitize_r p.1 bins == i)

/-- Embedding of `_bin_data(x, y, width, log=False, mode='mean')`.  `min(x)`/`max(x)` on an
empty `x` raise `ValueError`.  The bin edges are `np.arange(min(x),
max(x)+width, width)` (linear) or a `np.logspace` over the log10 range (when
`log`; `np.int` is the historical alias of `int`).  The loop
`for i in range(1, len(bins))` keeps only non-empty bins, reducing by mean or
median and attaching `std/sqrt(n)`; any other `mode` leaves `bin_x` unbound
(`else: pass`), so the return line raises `NameError`. -/
noncomputable def _bin_data (x y : List ℝ) (width : ℝ) (log : Bool) (mode : String) :
    Except PyErr (List ℝ × List ℝ × List ℝ) :=
  match x with
  | [] => .error (.valueError "min() arg is an empty sequence")
  | x0 :: xt =>
      let mn := xt.foldl min x0
      let mx := xt.foldl max x0
      let bins :=
        if log then
          let mi := Real.logb 10 mn
          let ma := Real.logb 10 mx
          let no := ⌈(ma - mi) / width⌉₊
          np_logspace mi (mi + ((no : ℝ) + 1) * width) no
        else np_arange mn (mx + width) width
      let idxs := (List.range' 1 (bins.length - 1)).filter
        (fun i => !(bin_members (x0 :: xt) y bins i).isEmpty)
      if mode = "mean" then
        .ok (idxs.map (fun i => np_mean ((bin_members (x0 :: xt) y bins i).map Prod.fst)),
             idxs.map (fun i => np_mean ((bin_members (x0 :: xt) y bins i).map Prod.snd)),
             idxs.map (fun i => np_std ((bin_members (x0 :: xt) y bins i).map Prod.snd)
               / Real.sqrt ((bin_members (x0 :: xt) y bins i).length)))
      else if mode = "median" then
        .ok (idxs.map (fun i => np_median ((bin_members (x0 :: xt) y bins i).map Prod.fst)),
             idxs.map (fun i => np_median ((bin_members (x0 :: xt) y bins i).map Prod.snd)),
             idxs.map (fun i => np_std ((bin_members (x0 :: xt) y bins i).map Prod.snd)
               / Real.sqrt ((bin_members (x0 :: xt) y bins i).length)))
      else .error (.nameError "bin_x")

/-- The linear bin-edge list of `_bin_data` (the `log=False` branch). -/
noncomputable def lin_bins (x0 : ℝ) (xt : List ℝ) (w : ℝ) : List ℝ :=
  np_arange (xt.foldl min x0) (xt.foldl max x0 + w) w

/-- The indices of the non-empty bins, in bin order. -/
noncomputable def bin_idxs (x0 : ℝ) (xt y : List ℝ) (w : ℝ) : List ℕ :=
  (List.range' 1 ((lin_bins x0 xt w).length - 1)).filter
    (fun i => !(bin_members (x0 :: xt) y (lin_bins x0 xt w) i).isEmpty)

lemma bin_data_mean_eq (x0 : ℝ) (xt y : List ℝ) (w : ℝ) :
    _bin_data (x0 :: xt) y w false "mean"
      = .ok ((bin_idxs x0 xt y w).map
              (fun i => np_mean ((bin_members (x0 :: xt) y (lin_bins x0 xt w) i).map Prod.fst)),
             (bin_idxs x0 xt y w).map
              (fun i => np_mean ((bin_members (x0 :: xt) y (lin_bins x0 xt w) i).map Prod.snd)),
             (bin_idxs x0 xt y w).map
              (fun i => np_std ((bin_members (x0 :: xt) y (lin_bins x0 xt w) i).map Prod.snd)
                / Real.sqrt ((bin_members (x0 :: xt) y (lin_bins x0 xt w) i).length))) := rfl

lemma countP_downward_initial (p : ℕ → Bool)
    (hmono : ∀ k l : ℕ, l ≤ k → p k = true → p l = true) (n : ℕ) :
    ∀ k, k < n → (p k = true ↔ k < (List.range n).countP p) := by
  induction n with
  | zero => intro k hk; omega
  | succ n ih =>
      intro k hk
      rw [List.range_succ, List.countP_append]
      cases hpn : p n with
      | true =>
          have hall : ∀ j ∈ List.range n, p j = true := by
            intro j hj
            exact hmono n j (le_of_lt (List.mem_range.mp hj)) hpn
          have hcount : (List.range n).countP p = n := by
            rw [List.countP_eq_length.mpr hall, List.length_range]
          have hone : List.countP p [n] = 1 := by simp [List.countP_cons, hpn]
          rw [hcount, hone]
          constructor
          · intro _; omega
          · intro _
            rcases Nat.lt_succ_iff_lt_or_eq.mp hk with h | h
            · exact hmono n k (le_of_lt h) hpn
            · rw [h]; exact hpn
      | false =>
          have hzero : List.countP p [n] = 0 := by simp [List.countP_cons, hpn]
          rw [hzero, Nat.add_zero]
          rcases Nat.lt_succ_iff_lt_or_eq.mp hk with h | h
          · exact ih k h
          · rw [h, hpn]
            have hle : (List.range n).countP p ≤ n := by
              have := List.countP_le_length (p := p) (l := List.range n)
              simpa using this
            constructor
            · intro hfalse; exact absurd hfalse (by simp)
            · intro hlt; omega

/-- Contiguity of the `np.digitize`/`np.arange` binning: an interior bin
index `i` is assigned to exactly the values in the half-open window
`[a+(i-1)w, a+iw)`. -/
lemma np_digitize_arange_iff (a w v : ℝ) (hw : 0 < w) (n i : ℕ)
    (h1 : 1 ≤ i) (h2 : i < n) :
    np_digitize_r v ((List.range n).map (fun k : ℕ => a + k * w)) = i ↔
      a + ((i : ℝ) - 1) * w ≤ v ∧ v < a + i * w := by
  have hdig : np_digitize_r v ((List.range n).map (fun k : ℕ => a + k * w))
      = (List.range n).countP (fun k : ℕ => decide (a + k * w ≤ v)) := by
    rw [np_digitize_r, List.countP_map]
    rfl
  have hmono : ∀ k l : ℕ, l ≤ k →
      (fun k : ℕ => decide (a + k * w ≤ v)) k = true →
      (fun k : ℕ => decide (a + k * w ≤ v)) l = true := by
    intro k l hlk hk
    simp only [decide_eq_true_eq] at hk ⊢
    have hcast : (l : ℝ) ≤ (k : ℝ) := by exact_mod_cast hlk
    nlinarith
  have hkey := countP_downward_initial _ hmono n
  rw [hdig]
  have hcast1 : ((i - 1 : ℕ) : ℝ) = (i : ℝ) - 1 := by
    push_cast [h1]
    ring
  constructor
  · intro hc
    constructor
    · have h := (hkey (i - 1) (by omega)).mpr (by omega)
      simp only [decide_eq_true_eq] at h
      rw [hcast1] at h
      linarith
    · have h := hkey i h2
      rw [hc] at h
      have : ¬((fun k : ℕ => decide (a + k * w ≤ v)) i = true) := by
        rw [h]; omega
      simp only [decide_eq_true_eq, not_le] at this
      exact this
  · rintro ⟨hlo, hhi⟩
    have hp1 : (fun k : ℕ => decide (a + k * w ≤ v)) (i - 1) = true := by
      simp only [decide_eq_true_eq]
      rw [hcast1]
      linarith
    have hp2 : ¬((fun k : ℕ => decide (a + k * w ≤ v)) i = true) := by
      simp only [decide_eq_true_eq, not_le]
      exact hhi
    have hge : i ≤ (List.range n).countP (fun k : ℕ => decide (a + k * w ≤ v)) := by
      have := (hkey (i - 1) (by omega)).mp hp1
      omega
    have hle : (List.range n).countP (fun k : ℕ => decide (a + k * w ≤ v)) ≤ i := by
      by_contra hcon
      exact hp2 ((hkey i h2).mpr (by omega))
    omega

lemma np_std_12 : np_std [(1 : ℝ), 2] = 1 / 2 := by
  rw [np_std]
  rw [show ((([(1 : ℝ), 2]).map (fun v => (v - np_mean [1, 2]) ^ 2)).sum
      / (([(1 : ℝ), 2]).length : ℝ)) = 1 / 4 from by norm_num [np_mean]]
  rw [show (1 / 4 : ℝ) = (1 / 2) ^ 2 by norm_num]
  exact Real.sqrt_sq (by norm_num)

lemma np_std_34 : np_std [(3 : ℝ), 4] = 1 / 2 := by
  rw [np_std]
  rw [show ((([(3 : ℝ), 4]).map (fun v => (v - np_mean [3, 4]) ^ 2)).sum
      / (([(3 : ℝ), 4]).length : ℝ)) = 1 / 4 from by norm_num [np_mean]]
  rw [show (1 / 4 : ℝ) = (1 / 2) ^ 2 by norm_num]
  exact Real.sqrt_sq (by norm_num)

lemma np_std_56 : np_std [(5 : ℝ), 6] = 1 / 2 := by
  rw [np_std]
  rw [show ((([(5 : ℝ), 6]).map (fun v => (v - np_mean [5, 6]) ^ 2)).sum
      / (([(5 : ℝ), 6]).length : ℝ)) = 1 / 4 from by norm_num [np_mean]]
  rw [show (1 / 4 : ℝ) = (1 / 2) ^ 2 by norm_num]
  exact Real.sqrt_sq (by norm_num)

lemma bin_data_example_eval :
    _bin_data [0, 1, 2, 3, 4, 5] [1, 2, 3, 4, 5, 6] 2 false "mean"
      = .ok ([1 / 2, 5 / 2, 9 / 2], [3 / 2, 7 / 2, 11 / 2],
             [(1 / 2) / Real.sqrt 2, (1 / 2) / Real.sqrt 2, (1 / 2) / Real.sqrt 2]) := by
  have hmn : ([1, 2, 3, 4, 5] : List ℝ).foldl min 0 = 0 := by
    norm_num [List.foldl, min_def]
  have hmx : ([1, 2, 3, 4, 5] : List ℝ).foldl max 0 = 5 := by
    norm_num [List.foldl, max_def]
  have hbins : lin_bins 0 [1, 2, 3, 4, 5] 2 = [0, 2, 4, 6] := by
    rw [lin_bins, hmn, hmx, np_arange]
    rw [show ((5 : ℝ) + 2 - 0) / 2 = 7 / 2 by norm_num]
    rw [show ⌈(7 / 2 : ℝ)⌉₊ = 4 from by rw [Nat.ceil_eq_iff (by norm_num)]; norm_num]
    rw [show List.range 4 = [0, 1, 2, 3] from rfl]
    norm_num
  have hd0 : np_digitize_r 0 [0, 2, 4, 6] = 1 := by
    norm_num [np_digitize_r, List.countP_cons, List.countP_nil]
  have hd1 : np_digitize_r 1 [0, 2, 4, 6] = 1 := by
    norm_num [np_digitize_r, List.countP_cons, List.countP_nil]
  have hd2 : np_digitize_r 2 [0, 2, 4, 6] = 2 := by
    norm_num [np_digitize_r, List.countP_cons, List.countP_nil]
  have hd3 : np_digitize_r 3 [0, 2, 4, 6] = 2 := by
    norm_num [np_digitize_r, List.countP_cons, List.countP_nil]
  have hd4 : np_digitize_r 4 [0, 2, 4, 6] = 3 := by
    norm_num [np_digitize_r, List.countP_cons, List.countP_nil]
  have hd5 : np_digitize_r 5 [0, 2, 4, 6] = 3 := by
    norm_num [np_digitize_r, List.countP_cons, List.countP_nil]
  have hm1 : bin_members [0, 1, 2, 3, 4, 5] [1, 2, 3, 4, 5, 6] [0, 2, 4, 6] 1
      = [(0, 1), (1, 2)] := by
    rw [bin_members]
    rw [show (([0, 1, 2, 3, 4, 5] : List ℝ).zip ([1, 2, 3, 4, 5, 6] : List ℝ))
      = [(0, 1), (1, 2), (2, 3), (3, 4), (4, 5), (5, 6)] from rfl]
    simp [List.filter_cons, hd0, hd1, hd2, hd3, hd4, hd5]
  have hm2 : bin_members [0, 1, 2, 3, 4, 5] [1, 2, 3, 4, 5, 6] [0, 2, 4, 6] 2
      = [(2, 3), (3, 4)] := by
    rw [bin_members]
    rw [show (([0, 1, 2, 3, 4, 5] : List ℝ).zip ([1, 2, 3, 4, 5, 6] : List ℝ))
      = [(0, 1), (1, 2), (2, 3), (3, 4), (4, 5), (5, 6)] from rfl]
    simp [List.filter_cons, hd0, hd1, hd2, hd3, hd4, hd5]
  have hm3 : bin_members [0, 1, 2, 3, 4, 5] [1, 2, 3, 4, 5, 6] [0, 2, 4, 6] 3
      = [(4, 5), (5, 6)] := by
    rw [bin_members]
    rw [show (([0, 1, 2, 3, 4, 5] : List ℝ).zip ([1, 2, 3, 4, 5, 6] : List ℝ))
      = [(0, 1), (1, 2), (2, 3), (3, 4), (4, 5), (5, 6)] from rfl]
    simp [List.filter_cons, hd0, hd1, hd2, hd3, hd4, hd5]
  have hidxs : bin_idxs 0 [1, 2, 3, 4, 5] [1, 2, 3, 4, 5, 6] 2 = [1, 2, 3] := by
    rw [bin_idxs, hbins]
    rw [show ([(0 : ℝ), 2, 4, 6]).length - 1 = 3 from rfl]
    rw [show List.range' 1 3 = [1, 2, 3] from rfl]
    simp [List.filter_cons, hm1, hm2, hm3]
  rw [bin_data_mean_eq, hbins, hidxs]
  simp only [List.map_cons, List.map_nil, hm1, hm2, hm3]
  refine congrArg Except.ok ?_
  simp only [Prod.mk.injEq]
  refine ⟨?_, ?_, ?_⟩
  · norm_num [np_mean]
  · norm_num [np_mean]
  · rw [np_std_12, np_std_34, np_std_56]
    norm_num

/-- C6 counterexample: the claim's example input produces **three** non-empty
bins — `(0.5, 1.5)`, `(2.5, 3.5)` and `(4.5, 5.5)` — not two. -/
theorem C6_counterexample_three_bins :
    _bin_data [0, 1, 2, 3, 4, 5] [1, 2, 3, 4, 5, 6] 2 false "mean"
      = .ok ([1 / 2, 5 / 2, 9 / 2], [3 / 2, 7 / 2, 11 / 2],
             [(1 / 2) / Real.sqrt 2, (1 / 2) / Real.sqrt 2, (1 / 2) / Real.sqrt 2]) ∧
    ([1 / 2, 5 / 2, 9 / 2] : List ℝ).length = 3 :=
  ⟨bin_data_example_eval, rfl⟩

lemma lin_bins_eq_map (x0 : ℝ) (xt : List ℝ) (w : ℝ) :
    lin_bins x0 xt w
      = (List.range ⌈((xt.foldl max x0 + w) - xt.foldl min x0) / w⌉₊).map
          (fun k : ℕ => xt.foldl min x0 + k * w) := rfl

/-- C6 (amended): `_bin_data` with `log=False`, `mode='mean'` partitions the
domain into contiguous fixed-width bins (`np.digitize` over `np.arange`
edges), reduces each non-empty bin's `y` by the mean with standard error
`std/sqrt(n)`, silently omits empty bins leaving three equal-length aligned
outputs; on `x=[0..5]`, `y=[1..6]`, `width=2` it yields **three** bins with
means `(0.5, 1.5)`, `(2.5, 3.5)`, `(4.5, 5.5)`. -/
theorem C6_bin_data_mean_contiguous (x0 : ℝ) (xt y : List ℝ) (w : ℝ) (hw : 0 < w) :
    ∃ bx bv be, _bin_data (x0 :: xt) y w false "mean" = .ok (bx, bv, be) ∧
      bx.length = bv.length ∧ bv.length = be.length ∧
      (∀ v : ℝ, ∀ i : ℕ, 1 ≤ i → i < (lin_bins x0 xt w).length →
        (np_digitize_r v (lin_bins x0 xt w) = i ↔
          xt.foldl min x0 + ((i : ℝ) - 1) * w ≤ v ∧ v < xt.foldl min x0 + (i : ℝ) * w)) ∧
      (∀ k, k < bx.length → ∃ i, 1 ≤ i ∧ i < (lin_bins x0 xt w).length ∧
        bin_members (x0 :: xt) y (lin_bins x0 xt w) i ≠ [] ∧
        bx.getD k 0 = np_mean ((bin_members (x0 :: xt) y (lin_bins x0 xt w) i).map Prod.fst) ∧
        bv.getD k 0 = np_mean ((bin_members (x0 :: xt) y (lin_bins x0 xt w) i).map Prod.snd) ∧
        be.getD k 0 = np_std ((bin_members (x0 :: xt) y (lin_bins x0 xt w) i).map Prod.snd)
          / Real.sqrt ((bin_members (x0 :: xt) y (lin_bins x0 xt w) i).length)) ∧
      _bin_data [0, 1, 2, 3, 4, 5] [1, 2, 3, 4, 5, 6] 2 false "mean"
        = .ok ([1 / 2, 5 / 2, 9 / 2], [3 / 2, 7 / 2, 11 / 2],
               [(1 / 2) / Real.sqrt 2, (1 / 2) / Real.sqrt 2, (1 / 2) / Real.sqrt 2]) := by
  refine ⟨_, _, _, bin_data_mean_eq x0 xt y w, by simp, by simp, ?_, ?_,
    bin_data_example_eval⟩
  · intro v i h1 h2
    rw [lin_bins_eq_map] at h2 ⊢
    rw [List.length_map, List.length_range] at h2
    exact np_digitize_arange_iff _ w v hw _ i h1 h2
  · intro k hk
    rw [List.length_map] at hk
    have hmem : (bin_idxs x0 xt y w)[k]
        ∈ (List.range' 1 ((lin_bins x0 xt w).length - 1)).filter
          (fun i => !(bin_members (x0 :: xt) y (lin_bins x0 xt w) i).isEmpty) :=
      List.getElem_mem hk
    refine ⟨(bin_idxs x0 xt y w)[k], ?_, ?_, ?_, ?_, ?_, ?_⟩
    · have hr := List.mem_range'_1.mp (List.mem_filter.mp hmem).1
      omega
    · have hr := List.mem_range'_1.mp (List.mem_filter.mp hmem).1
      omega
    · have hpred := (List.mem_filter.mp hmem).2
      intro hnil
      rw [hnil] at hpred
      simp at hpred
    · rw [List.getD_eq_getElem _ _ (by simpa using hk), List.getElem_map]
    · rw [List.getD_eq_getElem _ _ (by simpa using hk), List.getElem_map]
    · rw [List.getD_eq_getElem _ _ (by simpa using hk), List.getElem_map]

/-- Witness for C6 at the claim's example input. -/
theorem C6_bin_data_mean_contiguous_witness :
    (0 : ℝ) < 2 ∧
    (∃ bx bv be, _bin_data ((0 : ℝ) :: [1, 2, 3, 4, 5]) [1, 2, 3, 4, 5, 6] 2 false "mean"
        = .ok (bx, bv, be) ∧
      bx.length = bv.length ∧ bv.length = be.length ∧
      (∀ v : ℝ, ∀ i : ℕ, 1 ≤ i → i < (lin_bins 0 [1, 2, 3, 4, 5] 2).length →
        (np_digitize_r v (lin_bins 0 [1, 2, 3, 4, 5] 2) = i ↔
          ([1, 2, 3, 4, 5] : List ℝ).foldl min 0 + ((i : ℝ) - 1) * 2 ≤ v ∧
            v < ([1, 2, 3, 4, 5] : List ℝ).foldl min 0 + (i : ℝ) * 2)) ∧
      (∀ k, k < bx.length → ∃ i, 1 ≤ i ∧ i < (lin_bins 0 [1, 2, 3, 4, 5] 2).length ∧
        bin_members ((0 : ℝ) :: [1, 2, 3, 4, 5]) [1, 2, 3, 4, 5, 6]
          (lin_bins 0 [1, 2, 3, 4, 5] 2) i ≠ [] ∧
        bx.getD k 0 = np_mean ((bin_members ((0 : ℝ) :: [1, 2, 3, 4, 5]) [1, 2, 3, 4, 5, 6]
          (lin_bins 0 [1, 2, 3, 4, 5] 2) i).map Prod.fst) ∧
        bv.getD k 0 = np_mean ((bin_members ((0 : ℝ) :: [1, 2, 3, 4, 5]) [1, 2, 3, 4, 5, 6]
          (lin_bins 0 [1, 2, 3, 4, 5] 2) i).map Prod.snd) ∧
        be.getD k 0 = np_std ((bin_members ((0 : ℝ) :: [1, 2, 3, 4, 5]) [1, 2, 3, 4, 5, 6]
          (lin_bins 0 [1, 2, 3, 4, 5] 2) i).map Prod.snd)
          / Real.sqrt ((bin_members ((0 : ℝ) :: [1, 2, 3, 4, 5]) [1, 2, 3, 4, 5, 6]
            (lin_bins 0 [1, 2, 3, 4, 5] 2) i).length)) ∧
      _bin_data [0, 1, 2, 3, 4, 5] [1, 2, 3, 4, 5, 6] 2 false "mean"
        = .ok ([1 / 2, 5 / 2, 9 / 2], [3 / 2, 7 / 2, 11 / 2],
               [(1 / 2) / Real.sqrt 2, (1 / 2) / Real.sqrt 2, (1 / 2) / Real.sqrt 2])) :=
  ⟨by norm_num, C6_bin_data_mean_contiguous 0 [1, 2, 3, 4, 5] [1, 2, 3, 4, 5, 6] 2 (by norm_num)⟩

/-- C9 counterexample: `_bin_data` does *not* degrade gracefully on an empty
series — `min(x)` raises `ValueError`. -/
theorem C9_counterexample_bin_data_empty_raises :
    _bin_data [] [] 2 false "mean"
      = .error (.valueError "min() arg is an empty sequence") := rfl

/-- C9 (amended): `return_max` on an empty series returns the
`(None, NaN, NaN)` sentinel (in either mode) and `max_elements` returns empty
outputs without raising, but `_bin_data` on an empty series raises
`ValueError` from `min(x)` rather than degrading to a sentinel. -/
theorem C9_degenerate_series_sentinels :
    return_max ([] : List ℚ) [] none = (none, none, none) ∧
    return_max ([] : List ℚ) [] (some 3.2) = (none, none, none) ∧
    max_elements [] [] 5 none none = ([], [], []) ∧
    max_elements [] [] 5 none (some 4) = ([], [], []) ∧
    _bin_data [] [] 2 false "mean"
      = .error (.valueError "min() arg is an empty sequence") :=
  ⟨rfl, rfl, rfl, rfl, rfl⟩

end PySyd
